import Mathlib

/-
  Verification of the gh-watcher release bot (src/bot.py).

  The Python program keeps, per watched repository, a persisted State
  (an ETag cache token plus a snapshot of releases), fetches the release
  list, diffs the previous snapshot against the current one, and sends
  notification events.  We embed the pure core shallowly:

  * Python dicts are association lists with first-match lookup
    (`pyGet`) and insert-or-overwrite assignment (`pySet`), mirroring
    `d.get(k)` / `d[k] = v`.  Python dict keys here are either ints or
    strings, modelled by `Key`.
  * JSON persistence (`json.dumps` / `json.loads`) is modelled by a
    `Json` value tree; the crucial effect is that integer dict keys are
    serialized as strings.  A state file on disk is a `FileContent`:
    either a parsed JSON document or unparseable garbage (a file whose
    `json.loads` raises).
  * The functions `summarize_release`, `build_snapshot`,
    `detect_changes`, `load_state`, `save_state` and the tick logic of
    `process_repo` are translated line by line from src/bot.py; the
    regular-expression asset filters are abstracted as optional boolean
    matchers, and network / logging side effects are dropped (they do
    not feed back into the state).
-/

namespace GhWatcher

/-- A Python dict key as used by the bot: release/asset ids are ints in
the raw GitHub payload and strings after JSON persistence. -/
inductive Key where
  | intK : Int → Key
  | strK : String → Key
deriving DecidableEq

/-- `d.get(k)`: first-match lookup in an association list (Python dicts
have unique keys, so first match is the match). -/
def pyGet {κ α : Type} [DecidableEq κ] (k : κ) : List (κ × α) → Option α
  | [] => none
  | (k', v) :: rest => if k' = k then some v else pyGet k rest

/-- `d[k] = v`: overwrite the existing entry in place, else append
(Python dicts keep the original position of an overwritten key). -/
def pySet {κ α : Type} [DecidableEq κ] (k : κ) (v : α) : List (κ × α) → List (κ × α)
  | [] => [(k, v)]
  | (k', v') :: rest => if k' = k then (k', v) :: rest else (k', v') :: pySet k v rest

/-- An asset entry as produced by `summarize_release` (bot.py:191). -/
structure Asset where
  name : String
  download_count : Int
  browser_download_url : Option String
deriving DecidableEq

/-- A release summary as produced by `summarize_release` (bot.py:196).
The `assets` dict is keyed by the raw asset id. -/
structure Release where
  id : Option Key
  tag_name : Option String
  name : Option String
  draft : Option Bool
  prerelease : Option Bool
  html_url : Option String
  published_at : Option String
  assets : List (Key × Asset)
deriving DecidableEq

/-- A snapshot: release id ↦ release summary, as built by
`build_snapshot` (bot.py:212). -/
abbrev Snapshot := List (Key × Release)

/-- The persisted per-repository state `{"etag": ..., "releases": ...}`
(bot.py:147). -/
structure PyState where
  etag : Option String
  releases : Snapshot
deriving DecidableEq

/-- `{"etag": None, "releases": {}}` (bot.py:147). -/
def defaultState : PyState := ⟨none, []⟩

/-- A raw asset record of the GitHub payload, as read by
`summarize_release` (bot.py:185-195). -/
structure RawAsset where
  id : Key
  name : Option String
  download_count : Option Int
  browser_download_url : Option String
deriving DecidableEq

/-- A raw release record of the GitHub payload, as read by
`summarize_release` / `build_snapshot`. -/
structure RawRelease where
  id : Option Key
  tag_name : Option String
  name : Option String
  draft : Option Bool
  prerelease : Option Bool
  html_url : Option String
  published_at : Option String
  assets : Option (List RawAsset)
deriving DecidableEq

/-- The payload shape returned by the releases endpoint: either a single
release record (ONLY_LATEST mode) or a list (bot.py:208-211). -/
inductive ApiData where
  | single : RawRelease → ApiData
  | many : List RawRelease → ApiData
deriving DecidableEq

/-- The environment-derived configuration the core depends on.  The
compiled regexes `inc_re` / `exc_re` are abstracted as optional boolean
matchers on the asset name (`f name` models `re.search` finding a
match). -/
structure Config where
  notify_on : List String
  include_draft : Bool
  include_prerelease : Bool
  skip_existing_on_init : Bool
  inc_re : Option (String → Bool)
  exc_re : Option (String → Bool)

/-- Loop body of the asset loop in `summarize_release` (bot.py:185-195):
filter by include/exclude pattern, then `asset_info[a["id"]] = {...}`. -/
def summarizeStep (cfg : Config) (acc : List (Key × Asset)) (a : RawAsset) :
    List (Key × Asset) :=
  let nm := a.name.getD ""
  if (match cfg.inc_re with | some f => !(f nm) | none => false) then acc
  else if (match cfg.exc_re with | some f => f nm | none => false) then acc
  else pySet a.id ⟨nm, a.download_count.getD 0, a.browser_download_url⟩ acc

/-- `summarize_release` (bot.py:182-205).  Note that the assets dict is
keyed by the raw `a["id"]`, not by a stringified id. -/
def summarize_release (cfg : Config) (rel : RawRelease) : Release :=
  { id := rel.id
    tag_name := rel.tag_name
    name := rel.name
    draft := rel.draft
    prerelease := rel.prerelease
    html_url := rel.html_url
    published_at := rel.published_at
    assets := (rel.assets.getD []).foldl (summarizeStep cfg) [] }

/-- Python `str()` applied to a release id (`str(s["id"])`,
bot.py:219). -/
def pyStr : Option Key → String
  | none => "None"
  | some (Key.intK n) => toString n
  | some (Key.strK s) => s

/-- `rels = [api_data] if single record else api_data or []`
(bot.py:208-211). -/
def coerceApi : ApiData → List RawRelease
  | ApiData.single r => [r]
  | ApiData.many rs => rs

/-- Loop body of `build_snapshot` (bot.py:213-219): draft/prerelease
policy filter, then `snapshot[str(s["id"])] = s`. -/
def buildStep (cfg : Config) (snapshot : Snapshot) (rel : RawRelease) : Snapshot :=
  if !cfg.include_draft && rel.draft.getD false then snapshot
  else if !cfg.include_prerelease && rel.prerelease.getD false then snapshot
  else
    let s := summarize_release cfg rel
    pySet (Key.strK (pyStr s.id)) s snapshot

/-- `build_snapshot` (bot.py:207-220).  Release keys are stringified
ids; asset keys inside each release stay raw. -/
def build_snapshot (cfg : Config) (api_data : ApiData) : Snapshot :=
  (coerceApi api_data).foldl (buildStep cfg) []

/-- A detected change event (the dicts appended in `detect_changes`).
`dl_increase` carries `delta`, `from` and `to` in that order. -/
inductive Event where
  | new_release : Release → Event
  | new_asset : Release → Asset → Event
  | dl_increase : Release → Asset → Int → Int → Int → Event
deriving DecidableEq

/-- First pass of `detect_changes` (bot.py:226-229): one `new_release`
per current release id absent from the previous snapshot. -/
def newReleaseEvents (old_rels : Snapshot) (news : Snapshot) : List Event :=
  news.filterMap (fun p =>
    if pyGet p.1 old_rels = none then some (Event.new_release p.2) else none)

/-- Second pass of `detect_changes` (bot.py:231-238): for releases
present in both snapshots, one `new_asset` per asset id absent from the
previous release's asset dict (`if not old_rel: continue`; a release
summary dict is never empty, so falsiness there means absence). -/
def newAssetEvents (old_rels : Snapshot) (news : Snapshot) : List Event :=
  news.flatMap (fun p =>
    match pyGet p.1 old_rels with
    | none => []
    | some old_rel =>
        p.2.assets.filterMap (fun q =>
          if pyGet q.1 old_rel.assets = none then some (Event.new_asset p.2 q.2)
          else none))

/-- Third pass of `detect_changes` (bot.py:240-259): the previous
download count is taken as 0 when the asset (or its whole release) is
absent from the previous snapshot, per the comment in the source
"including from 0 for new releases/assets". -/
def dlIncreaseEvents (old_rels : Snapshot) (news : Snapshot) : List Event :=
  news.flatMap (fun p =>
    let old_rel := pyGet p.1 old_rels
    p.2.assets.filterMap (fun q =>
      let old_asset := match old_rel with
        | some orel => pyGet q.1 orel.assets
        | none => none
      let old_dl := match old_asset with
        | some oa => oa.download_count
        | none => 0
      let new_dl := q.2.download_count
      if new_dl > old_dl then
        some (Event.dl_increase p.2 q.2 (new_dl - old_dl) old_dl new_dl)
      else none))

/-- `detect_changes` (bot.py:222-260): the three passes appended in
order, each guarded by membership of its kind in NOTIFY_ON.  The first
argument is the whole previous state (`old.get("releases", {})`). -/
def detect_changes (notify_on : List String) (old : PyState) (news : Snapshot) :
    List Event :=
  (if "new_release" ∈ notify_on then newReleaseEvents old.releases news else []) ++
  (if "new_asset" ∈ notify_on then newAssetEvents old.releases news else []) ++
  (if "dl_increase" ∈ notify_on then dlIncreaseEvents old.releases news else [])

/-- A JSON document, the parse result of a state file. -/
inductive Json where
  | null : Json
  | bool : Bool → Json
  | int : Int → Json
  | str : String → Json
  | arr : List Json → Json
  | obj : List (String × Json) → Json

/-- What a state file on disk holds: a JSON document (the successful
`json.loads` result) or garbage on which `json.loads` raises. -/
inductive FileContent where
  | json : Json → FileContent
  | garbage : String → FileContent

/-- How `json.dumps` renders a dict key: ints are stringified, strings
kept (this is the lossy step of persistence). -/
def keyToString : Key → String
  | Key.intK n => toString n
  | Key.strK s => s

/-- Serialize an optional string field (None ↦ null). -/
def encOptStr : Option String → Json
  | none => Json.null
  | some s => Json.str s

/-- Serialize an optional bool field (None ↦ null). -/
def encOptBool : Option Bool → Json
  | none => Json.null
  | some b => Json.bool b

/-- Serialize an optional id value (None ↦ null, int ↦ number,
str ↦ string). -/
def encOptKey : Option Key → Json
  | none => Json.null
  | some (Key.intK n) => Json.int n
  | some (Key.strK s) => Json.str s

/-- `json.dumps` of one asset entry. -/
def encodeAsset (a : Asset) : Json :=
  Json.obj [("name", Json.str a.name),
            ("download_count", Json.int a.download_count),
            ("browser_download_url", encOptStr a.browser_download_url)]

/-- `json.dumps` of one release summary; the asset dict keys pass
through `keyToString`. -/
def encodeRelease (r : Release) : Json :=
  Json.obj [("id", encOptKey r.id),
            ("tag_name", encOptStr r.tag_name),
            ("name", encOptStr r.name),
            ("draft", encOptBool r.draft),
            ("prerelease", encOptBool r.prerelease),
            ("html_url", encOptStr r.html_url),
            ("published_at", encOptStr r.published_at),
            ("assets", Json.obj (r.assets.map
              (fun q => (keyToString q.1, encodeAsset q.2))))]

/-- `json.dumps` of a whole state (bot.py:151). -/
def encodeState (st : PyState) : Json :=
  Json.obj [("etag", encOptStr st.etag),
            ("releases", Json.obj (st.releases.map
              (fun p => (keyToString p.1, encodeRelease p.2))))]

/-- Field access on a parsed JSON object (`d.get(field)`). -/
def jGet (k : String) : Json → Option Json
  | Json.obj kvs => pyGet k kvs
  | _ => none

/-- Read an optional string field back from JSON. -/
def decOptStr : Option Json → Option String
  | some (Json.str s) => some s
  | _ => none

/-- Read an optional bool field back from JSON. -/
def decOptBool : Option Json → Option Bool
  | some (Json.bool b) => some b
  | _ => none

/-- Read an optional int field back from JSON. -/
def decOptInt : Option Json → Option Int
  | some (Json.int n) => some n
  | _ => none

/-- Read an optional id field back from JSON. -/
def decOptKey : Option Json → Option Key
  | some (Json.int n) => some (Key.intK n)
  | some (Json.str s) => some (Key.strK s)
  | _ => none

/-- The asset value the loaded state holds for a parsed asset object.
JSON object keys are always strings, so every loaded dict key is a
`Key.strK`. -/
def decodeAsset (j : Json) : Asset :=
  { name := (decOptStr (jGet "name" j)).getD ""
    download_count := (decOptInt (jGet "download_count" j)).getD 0
    browser_download_url := decOptStr (jGet "browser_download_url" j) }

/-- The release value the loaded state holds for a parsed release
object. -/
def decodeRelease (j : Json) : Release :=
  { id := decOptKey (jGet "id" j)
    tag_name := decOptStr (jGet "tag_name" j)
    name := decOptStr (jGet "name" j)
    draft := decOptBool (jGet "draft" j)
    prerelease := decOptBool (jGet "prerelease" j)
    html_url := decOptStr (jGet "html_url" j)
    published_at := decOptStr (jGet "published_at" j)
    assets := match jGet "assets" j with
      | some (Json.obj kvs) => kvs.map (fun q => (Key.strK q.1, decodeAsset q.2))
      | _ => [] }

/-- The state value `json.loads` hands back for a state document. -/
def decodeState (j : Json) : PyState :=
  { etag := decOptStr (jGet "etag" j)
    releases := match jGet "releases" j with
      | some (Json.obj kvs) => kvs.map (fun p => (Key.strK p.1, decodeRelease p.2))
      | _ => [] }

/-- The state directory as a dict: file name ↦ file content. -/
abbrev Store := List (String × FileContent)

/-- `_state_path` (bot.py:137-138): `repo.replace('/', '__') + ".json"`,
spelled out character by character for the single-character pattern. -/
def state_path (repo : String) : String :=
  String.mk (repo.data.flatMap (fun c => if c = '/' then ['_', '_'] else [c])) ++ ".json"

/-- `load_state` (bot.py:140-147): the parsed file if it exists and
parses, else the default empty state; a parse failure is swallowed. -/
def load_state (store : Store) (repo : String) : PyState :=
  match pyGet (state_path repo) store with
  | some (FileContent.json j) => decodeState j
  | some (FileContent.garbage _) => defaultState
  | none => defaultState

/-- `save_state` (bot.py:149-151): overwrite the repository's state file
with the serialized state. -/
def save_state (store : Store) (repo : String) (st : PyState) : Store :=
  pySet (state_path repo) (FileContent.json (encodeState st)) store

/-- The outcome of `fetch_releases` as seen by `process_repo`:
an HTTPError / other exception (both end the tick), a 304, or a 200
payload with its new ETag. -/
inductive FetchResult where
  | httpError : FetchResult
  | otherError : FetchResult
  | notModified : Option String → FetchResult
  | ok : ApiData → Option String → FetchResult
deriving DecidableEq

/-- The observable result of one `process_repo` tick: the events whose
delivery was attempted, paired with the delivery outcome the sink
reported for each, and the state handed to `save_state` (none when the
tick ends without persisting). -/
structure TickResult where
  attempted : List (Event × Bool)
  saved : Option PyState
deriving DecidableEq

/-- The tick logic of `process_repo` (bot.py:345-477) for one fetched
outcome.  `deliver` abstracts `format_and_send_event`; a `false` result
models a delivery exception, which the source catches per event
(bot.py:469-473) so the loop always visits every event.  Logging and
PostgreSQL calls are observationally irrelevant and dropped. -/
def process_repo (cfg : Config) (deliver : Event → Bool) (state : PyState)
    (fetch : FetchResult) : TickResult :=
  let is_first_run := state.releases.isEmpty
  match fetch with
  | FetchResult.httpError => ⟨[], none⟩
  | FetchResult.otherError => ⟨[], none⟩
  | FetchResult.notModified _ => ⟨[], none⟩
  | FetchResult.ok data new_etag =>
    let snapshot := build_snapshot cfg data
    if is_first_run && cfg.skip_existing_on_init then
      ⟨[], some ⟨new_etag, snapshot⟩⟩
    else
      let events := detect_changes cfg.notify_on state snapshot
      ⟨events.map (fun ev => (ev, deliver ev)), some ⟨new_etag, snapshot⟩⟩

/-- One tick against the state directory: load, process, save if the
tick persists. -/
def runTick (cfg : Config) (deliver : Event → Bool) (store : Store) (repo : String)
    (fetch : FetchResult) : Store × TickResult :=
  let prev := load_state store repo
  let r := process_repo cfg deliver prev fetch
  match r.saved with
  | none => (store, r)
  | some st => (save_state store repo st, r)

/-- A sequence of ticks for one repository, collecting every event whose
delivery was attempted. -/
def runTicks (cfg : Config) (deliver : Event → Bool) (repo : String) :
    List FetchResult → Store → Store × List Event
  | [], store => (store, [])
  | f :: fs, store =>
    let (store', r) := runTick cfg deliver store repo f
    let (store'', evs) := runTicks cfg deliver repo fs store'
    (store'', r.attempted.map Prod.fst ++ evs)

/-- Is this fetch outcome one whose built snapshot is empty (all
non-success outcomes count vacuously)? -/
def okBuildsEmpty (cfg : Config) : FetchResult → Bool
  | FetchResult.ok data _ => decide (build_snapshot cfg data = [])
  | _ => true

/-- A key produced by JSON parsing? -/
def isStrK : Key → Bool
  | Key.strK _ => true
  | Key.intK _ => false

/-- Well-formedness a Python dict guarantees: unique release keys and,
per release, unique asset keys.  The association-list embedding admits
duplicates Python dicts cannot have; claims about arbitrary snapshots
assume this. -/
def WFSnap (s : Snapshot) : Prop :=
  (s.map Prod.fst).Nodup ∧ ∀ p ∈ s, ((p.2.assets.map Prod.fst).Nodup)

instance : DecidablePred WFSnap := fun s =>
  inferInstanceAs (Decidable (_ ∧ _))

/-- Every dict key of a state's snapshot (release ids and asset ids) is
a string key, as holds for any state read back from JSON. -/
def allStrKeys (s : Snapshot) : Prop :=
  ∀ p ∈ s, isStrK p.1 = true ∧ ∀ q ∈ p.2.assets, isStrK q.1 = true

instance : DecidablePred allStrKeys := fun s =>
  inferInstanceAs (Decidable (∀ p ∈ s, _ ∧ _))

/-! ### Concrete values used by the claim instances -/

/-- The default NOTIFY_ON set: all three event kinds (bot.py:33). -/
def allKinds : List String := ["new_release", "new_asset", "dl_increase"]

/-- Previous release "1" of the spec's third concrete case: no assets. -/
def relPrev1 : Release :=
  ⟨some (Key.intK 1), some "v1", none, some false, some false, none, none, []⟩

/-- Asset "20" with 3 downloads. -/
def asset20 : Asset := ⟨"tool.bin", 3, none⟩

/-- Current release "1": same release, now with asset "20". -/
def relCur1 : Release :=
  ⟨some (Key.intK 1), some "v1", none, some false, some false, none, none,
    [(Key.strK "20", asset20)]⟩

/-- Previous state `{"1": {assets: {}}}`. -/
def prevSt1 : PyState := ⟨none, [(Key.strK "1", relPrev1)]⟩

/-- Current snapshot `{"1": {assets: {"20": {download_count: 3}}}}`. -/
def curSnap1 : Snapshot := [(Key.strK "1", relCur1)]

/-- An asset with a positive download count. -/
def assetB : Asset := ⟨"pkg.tar", 5, some "u1"⟩

/-- A release carrying `assetB`. -/
def relB : Release :=
  ⟨some (Key.intK 7), some "v2", none, some false, some false, none, none,
    [(Key.intK 70, assetB)]⟩

/-- A one-release snapshot whose only asset has 5 downloads. -/
def snapB : Snapshot := [(Key.strK "7", relB)]

/-- A freshly built release: string release key in the snapshot, raw
integer asset key inside. -/
def relMixed : Release :=
  ⟨some (Key.intK 1), some "v1", none, some false, some false, none, none,
    [(Key.intK 20, ⟨"app.bin", 3, none⟩)]⟩

/-- An in-memory state with an integer asset key, as `build_snapshot`
produces it. -/
def stMixed : PyState := ⟨some "etag1", [(Key.strK "1", relMixed)]⟩

/-- A release used for the idempotence instance. -/
def relIdem : Release :=
  ⟨some (Key.intK 3), some "v3", none, some false, some false, none, none,
    [(Key.intK 30, ⟨"a.bin", 7, none⟩)]⟩

/-- A well-formed snapshot compared against itself. -/
def snapIdem : Snapshot := [(Key.strK "3", relIdem)]

/-- A default-like configuration: all kinds of interest, drafts excluded,
prereleases included, skip-existing-on-init on, no asset filters. -/
def cfg0 : Config := ⟨allKinds, false, true, true, none, none⟩

/-- A raw asset with integer id 20 and 3 downloads. -/
def rawAsset0 : RawAsset := ⟨Key.intK 20, some "app.zip", some 3, none⟩

/-- A raw release with integer id 1 carrying `rawAsset0`. -/
def rawRel0 : RawRelease :=
  ⟨some (Key.intK 1), some "v1", none, some false, some false, none, none,
    some [rawAsset0]⟩

/-- A one-release payload. -/
def api0 : ApiData := ApiData.many [rawRel0]

/-- The summary `build_snapshot cfg0 api0` stores under key "1". -/
def relC4 : Release := summarize_release cfg0 rawRel0

/-- The asset value stored under the raw key `intK 20`. -/
def assetC4 : Asset := ⟨"app.zip", 3, none⟩

/-- A fetch trace for the empty-upstream scenario: one successful fetch
reporting no releases, then a 304, then a transport error. -/
def fetches10 : List FetchResult :=
  [FetchResult.ok (ApiData.many []) (some "t1"), FetchResult.notModified none,
    FetchResult.httpError]

/-! ### Dictionary lemmas -/

theorem pyGet_pySet_self {κ α : Type} [DecidableEq κ] (k : κ) (v : α)
    (l : List (κ × α)) : pyGet k (pySet k v l) = some v := by
  induction l with
  | nil => simp [pyGet, pySet]
  | cons p t ih =>
    obtain ⟨k', v'⟩ := p
    by_cases hk : k' = k
    · subst hk; simp [pySet, pyGet]
    · simp [pySet, hk, pyGet, ih]

theorem mem_of_pyGet {κ α : Type} [DecidableEq κ] {k : κ} {v : α} :
    ∀ {l : List (κ × α)}, pyGet k l = some v → (k, v) ∈ l := by
  intro l
  induction l with
  | nil => intro h; simp [pyGet] at h
  | cons p t ih =>
    intro h
    obtain ⟨k', v'⟩ := p
    by_cases hk : k' = k
    · subst hk
      rw [pyGet, if_pos rfl] at h
      obtain rfl : v' = v := Option.some.inj h
      exact List.mem_cons_self _ _
    · rw [pyGet, if_neg hk] at h
      exact List.mem_cons_of_mem _ (ih h)

theorem pyGet_isSome_of_mem {κ α : Type} [DecidableEq κ] {k : κ} {v : α} :
    ∀ {l : List (κ × α)}, (k, v) ∈ l → ∃ w, pyGet k l = some w := by
  intro l
  induction l with
  | nil => intro h; simp at h
  | cons p t ih =>
    intro h
    obtain ⟨k', v'⟩ := p
    by_cases hk : k' = k
    · exact ⟨v', by rw [pyGet, if_pos hk]⟩
    · rcases List.mem_cons.mp h with heq | hmem
      · exact absurd (congrArg Prod.fst heq).symm hk
      · obtain ⟨w, hw⟩ := ih hmem
        exact ⟨w, by rw [pyGet, if_neg hk]; exact hw⟩

theorem pyGet_eq_none {κ α : Type} [DecidableEq κ] {k : κ} :
    ∀ {l : List (κ × α)}, (∀ q ∈ l, q.1 ≠ k) → pyGet k l = none := by
  intro l
  induction l with
  | nil => intro _; rfl
  | cons p t ih =>
    intro h
    obtain ⟨k', v'⟩ := p
    have h1 : k' ≠ k := h (k', v') (List.mem_cons_self _ _)
    rw [pyGet, if_neg h1]
    exact ih (fun q hq => h q (List.mem_cons_of_mem _ hq))

theorem pyGet_of_mem_nodup {κ α : Type} [DecidableEq κ] {k : κ} {v : α} :
    ∀ {l : List (κ × α)}, (l.map Prod.fst).Nodup → (k, v) ∈ l →
      pyGet k l = some v := by
  intro l
  induction l with
  | nil => intro _ h; simp at h
  | cons p t ih =>
    intro hnd h
    obtain ⟨k', v'⟩ := p
    rw [List.map_cons, List.nodup_cons] at hnd
    rcases List.mem_cons.mp h with heq | hmem
    · obtain ⟨rfl, rfl⟩ := Prod.mk.injEq .. |>.mp heq.symm
      rw [pyGet, if_pos rfl]
    · have hk : k' ≠ k := by
        intro hkk
        refine hnd.1 ?_
        rw [hkk]
        exact List.mem_map.mpr ⟨(k, v), hmem, rfl⟩
      rw [pyGet, if_neg hk]
      exact ih hnd.2 hmem

theorem pyGet_isSome_keys_eq {κ α β : Type} [DecidableEq κ] {k : κ} :
    ∀ (l : List (κ × α)) (l' : List (κ × β)),
      l.map Prod.fst = l'.map Prod.fst →
      (∃ v, pyGet k l = some v) → ∃ w, pyGet k l' = some w := by
  intro l
  induction l with
  | nil =>
    intro l' _ hv
    obtain ⟨v, hv⟩ := hv
    simp [pyGet] at hv
  | cons p t ih =>
    intro l' h hv
    cases l' with
    | nil => simp at h
    | cons p' t' =>
      rw [List.map_cons, List.map_cons, List.cons.injEq] at h
      obtain ⟨k1, v1⟩ := p
      obtain ⟨k2, v2⟩ := p'
      obtain ⟨hv', hv⟩ := hv
      have hk12 : k1 = k2 := h.1
      by_cases hk : k1 = k
      · refine ⟨v2, ?_⟩
        rw [pyGet, if_pos (hk12 ▸ hk)]
      · rw [pyGet, if_neg hk] at hv
        obtain ⟨w, hw⟩ := ih t' h.2 ⟨hv', hv⟩
        refine ⟨w, ?_⟩
        rw [pyGet, if_neg (hk12 ▸ hk)]
        exact hw

theorem mem_pySet {κ α : Type} [DecidableEq κ] {k : κ} {v : α} {q : κ × α} :
    ∀ {l : List (κ × α)}, q ∈ pySet k v l → q = (k, v) ∨ q ∈ l := by
  intro l
  induction l with
  | nil => intro h; exact Or.inl (List.mem_singleton.mp h)
  | cons p t ih =>
    intro h
    obtain ⟨k', v'⟩ := p
    by_cases hk : k' = k
    · subst hk
      rw [pySet, if_pos rfl] at h
      rcases List.mem_cons.mp h with heq | hmem
      · exact Or.inl heq
      · exact Or.inr (List.mem_cons_of_mem _ hmem)
    · rw [pySet, if_neg hk] at h
      rcases List.mem_cons.mp h with heq | hmem
      · exact Or.inr (heq ▸ List.mem_cons_self _ _)
      · rcases ih hmem with h1 | h2
        · exact Or.inl h1
        · exact Or.inr (List.mem_cons_of_mem _ h2)

/-! ### Small list helpers -/

theorem map_self {α : Type} {l : List α} {f : α → α} (h : ∀ x ∈ l, f x = x) :
    l.map f = l := by
  induction l with
  | nil => rfl
  | cons a t ih =>
    rw [List.map_cons, h a (List.mem_cons_self _ _),
      ih (fun x hx => h x (List.mem_cons_of_mem _ hx))]

theorem flatMap_eq_nil_of {α β : Type} {l : List α} {f : α → List β}
    (h : ∀ x ∈ l, f x = []) : l.flatMap f = [] := by
  induction l with
  | nil => rfl
  | cons a t ih =>
    rw [List.flatMap_cons, h a (List.mem_cons_self _ _),
      ih (fun x hx => h x (List.mem_cons_of_mem _ hx))]
    rfl

/-! ### Serialization round-trip lemmas -/

theorem decOptStr_encOptStr (o : Option String) :
    decOptStr (some (encOptStr o)) = o := by
  cases o <;> rfl

theorem decOptBool_encOptBool (o : Option Bool) :
    decOptBool (some (encOptBool o)) = o := by
  cases o <;> rfl

theorem decOptKey_encOptKey (o : Option Key) :
    decOptKey (some (encOptKey o)) = o := by
  cases o with
  | none => rfl
  | some k => cases k <;> rfl

theorem decodeAsset_encodeAsset (a : Asset) : decodeAsset (encodeAsset a) = a := by
  obtain ⟨nm, dc, url⟩ := a
  cases url <;> rfl

theorem decodeRelease_assets (j : Json) : (decodeRelease j).assets =
    match jGet "assets" j with
    | some (Json.obj kvs) => kvs.map (fun q => (Key.strK q.1, decodeAsset q.2))
    | _ => [] := rfl

theorem decodeRelease_assets_strK (j : Json) :
    ∀ q ∈ (decodeRelease j).assets, isStrK q.1 = true := by
  intro q hq
  rw [decodeRelease_assets] at hq
  cases hj : jGet "assets" j with
  | none => rw [hj] at hq; simp at hq
  | some jv =>
    rw [hj] at hq
    cases jv with
    | null => simp at hq
    | bool b => simp at hq
    | int n => simp at hq
    | str s => simp at hq
    | arr xs => simp at hq
    | obj kvs =>
      obtain ⟨x, _, hxq⟩ := List.mem_map.mp hq
      rw [← hxq]
      rfl

theorem decodeRelease_encodeRelease (r : Release)
    (h : ∀ q ∈ r.assets, isStrK q.1 = true) :
    decodeRelease (encodeRelease r) = r := by
  obtain ⟨i, tg, nm, dr, pr, hu, pa, asts⟩ := r
  have hassets :
      (List.map (fun q => (Key.strK q.1, decodeAsset q.2))
        (List.map (fun q => (keyToString q.1, encodeAsset q.2)) asts)) = asts := by
    rw [List.map_map]
    apply map_self
    intro q hq
    obtain ⟨qk, qa⟩ := q
    have hk := h (qk, qa) hq
    cases qk with
    | intK n => simp [isStrK] at hk
    | strK t =>
      show (Key.strK (keyToString (Key.strK t)), decodeAsset (encodeAsset qa))
        = (Key.strK t, qa)
      rw [decodeAsset_encodeAsset]
      rfl
  show Release.mk (decOptKey (some (encOptKey i))) (decOptStr (some (encOptStr tg)))
      (decOptStr (some (encOptStr nm))) (decOptBool (some (encOptBool dr)))
      (decOptBool (some (encOptBool pr))) (decOptStr (some (encOptStr hu)))
      (decOptStr (some (encOptStr pa)))
      (List.map (fun q => (Key.strK q.1, decodeAsset q.2))
        (List.map (fun q => (keyToString q.1, encodeAsset q.2)) asts))
    = Release.mk i tg nm dr pr hu pa asts
  rw [decOptKey_encOptKey, decOptStr_encOptStr, decOptStr_encOptStr,
    decOptBool_encOptBool, decOptBool_encOptBool, decOptStr_encOptStr,
    decOptStr_encOptStr, hassets]

theorem decodeState_encodeState (st : PyState) :
    decodeState (encodeState st) =
      ⟨st.etag, st.releases.map
        (fun p => (Key.strK (keyToString p.1), decodeRelease (encodeRelease p.2)))⟩ := by
  obtain ⟨e, rels⟩ := st
  show PyState.mk (decOptStr (some (encOptStr e)))
      (List.map (fun p => (Key.strK p.1, decodeRelease p.2))
        (List.map (fun p => (keyToString p.1, encodeRelease p.2)) rels)) = _
  rw [decOptStr_encOptStr, List.map_map]
  rfl

theorem load_state_save_state (store : Store) (repo : String) (st : PyState) :
    load_state (save_state store repo st) repo = decodeState (encodeState st) := by
  unfold load_state save_state
  rw [pyGet_pySet_self]

/-! ### Provenance of built snapshots -/

theorem mem_foldl_summarizeStep (cfg : Config) :
    ∀ (l : List RawAsset) (acc : List (Key × Asset)) (q : Key × Asset),
      q ∈ l.foldl (summarizeStep cfg) acc → q ∈ acc ∨ ∃ a ∈ l, q.1 = a.id := by
  intro l
  induction l with
  | nil => intro acc q h; exact Or.inl h
  | cons a t ih =>
    intro acc q h
    rw [List.foldl_cons] at h
    rcases ih _ q h with hacc | ⟨b, hb, hq⟩
    · simp only [summarizeStep] at hacc
      by_cases h1 : (match cfg.inc_re with
          | some f => !(f (a.name.getD ""))
          | none => false) = true
      · rw [if_pos h1] at hacc
        exact Or.inl hacc
      · rw [if_neg h1] at hacc
        by_cases h2 : (match cfg.exc_re with
            | some f => f (a.name.getD "")
            | none => false) = true
        · rw [if_pos h2] at hacc
          exact Or.inl hacc
        · rw [if_neg h2] at hacc
          rcases mem_pySet hacc with heq | hmem
          · exact Or.inr ⟨a, List.mem_cons_self _ _, by rw [heq]⟩
          · exact Or.inl hmem
    · exact Or.inr ⟨b, List.mem_cons_of_mem _ hb, hq⟩

theorem mem_foldl_buildStep (cfg : Config) :
    ∀ (l : List RawRelease) (acc : Snapshot) (p : Key × Release),
      p ∈ l.foldl (buildStep cfg) acc →
      p ∈ acc ∨ ∃ r ∈ l,
        p = (Key.strK (pyStr (summarize_release cfg r).id), summarize_release cfg r) := by
  intro l
  induction l with
  | nil => intro acc p h; exact Or.inl h
  | cons a t ih =>
    intro acc p h
    rw [List.foldl_cons] at h
    rcases ih _ p h with hacc | ⟨b, hb, hq⟩
    · simp only [buildStep] at hacc
      by_cases h1 : (!cfg.include_draft && a.draft.getD false) = true
      · rw [if_pos h1] at hacc
        exact Or.inl hacc
      · rw [if_neg h1] at hacc
        by_cases h2 : (!cfg.include_prerelease && a.prerelease.getD false) = true
        · rw [if_pos h2] at hacc
          exact Or.inl hacc
        · rw [if_neg h2] at hacc
          rcases mem_pySet hacc with heq | hmem
          · exact Or.inr ⟨a, List.mem_cons_self _ _, heq⟩
          · exact Or.inl hmem
    · exact Or.inr ⟨b, List.mem_cons_of_mem _ hb, hq⟩

theorem mem_build_snapshot {cfg : Config} {api : ApiData} {p : Key × Release}
    (h : p ∈ build_snapshot cfg api) :
    ∃ r ∈ coerceApi api,
      p = (Key.strK (pyStr (summarize_release cfg r).id), summarize_release cfg r) := by
  rcases mem_foldl_buildStep cfg (coerceApi api) [] p h with h0 | h1
  · simp at h0
  · exact h1

theorem mem_summarize_assets {cfg : Config} {r : RawRelease} {q : Key × Asset}
    (h : q ∈ (summarize_release cfg r).assets) :
    ∃ a ∈ r.assets.getD [], q.1 = a.id := by
  rcases mem_foldl_summarizeStep cfg _ [] q h with h0 | h1
  · simp at h0
  · exact h1

theorem pyGet_isSome_of_mem' {κ α : Type} [DecidableEq κ] {q : κ × α}
    {l : List (κ × α)} (h : q ∈ l) : ∃ w, pyGet q.1 l = some w := by
  obtain ⟨k, v⟩ := q
  exact pyGet_isSome_of_mem h

theorem pyGet_of_mem_nodup' {κ α : Type} [DecidableEq κ] {q : κ × α}
    {l : List (κ × α)} (hnd : (l.map Prod.fst).Nodup) (h : q ∈ l) :
    pyGet q.1 l = some q.2 := by
  obtain ⟨k, v⟩ := q
  exact pyGet_of_mem_nodup hnd h

/-! ### Claim theorems -/

/-- C8: change detection is idempotent.  Diffing any snapshot `S` against
itself — the detector is called with the previous state holding
`releases = S` and with `S` as the current snapshot — produces no events,
for every NOTIFY_ON set and cache token.  `WFSnap` states the key
uniqueness every Python dict has; the association-list embedding admits
duplicate keys Python cannot represent, so it is a faithfulness
hypothesis, not a restriction. -/
theorem c8_detect_self_eq_nil (notify_on : List String) (etag0 : Option String)
    (S : Snapshot) (hWF : WFSnap S) :
    detect_changes notify_on ⟨etag0, S⟩ S = [] := by
  have h1 : newReleaseEvents S S = [] := by
    apply List.filterMap_eq_nil_iff.mpr
    intro p hp
    obtain ⟨w, hw⟩ := pyGet_isSome_of_mem' hp
    simp [hw]
  have h2 : newAssetEvents S S = [] := by
    apply flatMap_eq_nil_of
    intro p hp
    have hw : pyGet p.1 S = some p.2 := pyGet_of_mem_nodup' hWF.1 hp
    simp only [hw]
    apply List.filterMap_eq_nil_iff.mpr
    intro q hq
    obtain ⟨w2, hw2⟩ := pyGet_isSome_of_mem' hq
    simp [hw2]
  have h3 : dlIncreaseEvents S S = [] := by
    apply flatMap_eq_nil_of
    intro p hp
    have hw : pyGet p.1 S = some p.2 := pyGet_of_mem_nodup' hWF.1 hp
    simp only [hw]
    apply List.filterMap_eq_nil_iff.mpr
    intro q hq
    have hw2 : pyGet q.1 p.2.assets = some q.2 :=
      pyGet_of_mem_nodup' (hWF.2 p hp) hq
    simp [hw2]
  unfold detect_changes
  rw [h1, h2, h3]
  simp

/-- C8 witness: a concrete well-formed snapshot with one release and one
asset with positive downloads diffs against itself to no events. -/
theorem c8_witness :
    WFSnap snapIdem ∧
      detect_changes allKinds ⟨some "w1", snapIdem⟩ snapIdem = [] :=
  ⟨by decide, c8_detect_self_eq_nil allKinds (some "w1") snapIdem (by decide)⟩

/-- C2 counterexample: the claim asserts `detect(∅, S)` never emits a
`download_increase`, but for a snapshot whose asset has 5 downloads the
code emits `dl_increase(from 0)` next to the `new_release`. -/
theorem c2_counterexample :
    detect_changes allKinds ⟨none, []⟩ snapB =
      [Event.new_release relB, Event.dl_increase relB assetB 5 0 5] ∧
    Event.dl_increase relB assetB 5 0 5 ∈ detect_changes allKinds ⟨none, []⟩ snapB := by
  decide

/-- C2 (amended): against an empty previous snapshot, detection yields
exactly one `new_release` per entry of `S` when that kind is of interest
and no `new_asset` events, but additionally one `download_increase`
(from 0, delta = the full count) for every asset of `S` whose download
count is positive, when `dl_increase` is of interest. -/
theorem c2_detect_from_empty (notify_on : List String) (etag0 : Option String)
    (S : Snapshot) :
    detect_changes notify_on ⟨etag0, []⟩ S =
      (if "new_release" ∈ notify_on then
        S.map (fun p => Event.new_release p.2) else []) ++
      (if "dl_increase" ∈ notify_on then
        S.flatMap (fun p => p.2.assets.filterMap (fun q =>
          if q.2.download_count > 0 then
            some (Event.dl_increase p.2 q.2 q.2.download_count 0 q.2.download_count)
          else none))
      else []) := by
  have h1 : newReleaseEvents [] S = S.map (fun p => Event.new_release p.2) := by
    induction S with
    | nil => rfl
    | cons p t ih =>
      show Event.new_release p.2 :: newReleaseEvents [] t = _
      rw [ih]
      rfl
  have h2 : newAssetEvents [] S = [] := by
    apply flatMap_eq_nil_of
    intro p _
    rfl
  have h3 : dlIncreaseEvents [] S =
      S.flatMap (fun p => p.2.assets.filterMap (fun q =>
        if q.2.download_count > 0 then
          some (Event.dl_increase p.2 q.2 q.2.download_count 0 q.2.download_count)
        else none)) := by
    unfold dlIncreaseEvents
    congr 1
    funext p
    simp [pyGet, sub_zero]
  unfold detect_changes
  rw [h1, h2, h3]
  simp

/-- C1 counterexample: for previous `{"1": {assets: {}}}` and current
`{"1": {assets: {"20": {download_count: 3}}}}` with all kinds of
interest, the code emits a `dl_increase(0 → 3)` for the brand-new asset
next to the `new_asset`, so the result is not `[new_asset]` alone. -/
theorem c1_counterexample :
    detect_changes allKinds prevSt1 curSnap1 =
      [Event.new_asset relCur1 asset20, Event.dl_increase relCur1 asset20 3 0 3] ∧
    detect_changes allKinds prevSt1 curSnap1 ≠ [Event.new_asset relCur1 asset20] := by
  decide

/-- Shared core of the dl_increase-pass analysis: an asset absent from
the previous release's asset map (including the case of a release absent
from the previous snapshot) is diffed against previous count 0, so a
positive current count yields a `dl_increase` event with `from = 0`. -/
theorem dl_increase_of_absent (notify_on : List String) (old : PyState)
    (S : Snapshot) (p : Key × Release) (q : Key × Asset)
    (hdl : "dl_increase" ∈ notify_on)
    (hp : p ∈ S) (hq : q ∈ p.2.assets)
    (habsent : ∀ orel, pyGet p.1 old.releases = some orel →
      pyGet q.1 orel.assets = none)
    (hpos : 0 < q.2.download_count) :
    Event.dl_increase p.2 q.2 q.2.download_count 0 q.2.download_count ∈
      detect_changes notify_on old S := by
  have hmem : Event.dl_increase p.2 q.2 q.2.download_count 0 q.2.download_count ∈
      dlIncreaseEvents old.releases S := by
    apply List.mem_flatMap.mpr
    refine ⟨p, hp, ?_⟩
    apply List.mem_filterMap.mpr
    refine ⟨q, hq, ?_⟩
    have hOA : (match pyGet p.1 old.releases with
        | some orel => pyGet q.1 orel.assets
        | none => none) = (none : Option Asset) := by
      cases h : pyGet p.1 old.releases with
      | none => rfl
      | some orel => exact habsent orel h
    simp only [hOA]
    rw [if_pos hpos, sub_zero]
  unfold detect_changes
  refine List.mem_append.mpr (Or.inr ?_)
  rw [if_pos hdl]
  exact hmem

/-- C1 (amended): the `download_increase` pass does not restrict itself
to asset ids present in both asset maps; an asset absent from the
previous release's asset map (including every asset of a release absent
from the previous snapshot) is treated as having previous download count
0, so whenever its current count is positive the pass emits
`dl_increase(delta = count, from = 0, to = count)` in addition to any
`new_asset` — in the spec's concrete scenario the events are
`[new_asset(asset 20), dl_increase(asset 20, 0 → 3)]`, not
`[new_asset(asset 20)]` alone. -/
theorem c1_new_asset_also_dl_increase (notify_on : List String) (old : PyState)
    (S : Snapshot) (p : Key × Release) (q : Key × Asset)
    (hdl : "dl_increase" ∈ notify_on)
    (hp : p ∈ S) (hq : q ∈ p.2.assets)
    (habsent : ∀ orel, pyGet p.1 old.releases = some orel →
      pyGet q.1 orel.assets = none)
    (hpos : 0 < q.2.download_count) :
    Event.dl_increase p.2 q.2 q.2.download_count 0 q.2.download_count ∈
      detect_changes notify_on old S :=
  dl_increase_of_absent notify_on old S p q hdl hp hq habsent hpos

/-- C1 witness: the amended statement instantiated at the spec's concrete
scenario. -/
theorem c1_witness :
    Event.dl_increase relCur1 asset20 3 0 3 ∈
      detect_changes allKinds prevSt1 curSnap1 := by
  exact c1_new_asset_also_dl_increase allKinds prevSt1 curSnap1
    (Key.strK "1", relCur1) (Key.strK "20", asset20) (by decide) (by decide)
    (by decide)
    (fun orel horel => by
      have h2 : relPrev1 = orel := Option.some.inj horel
      rw [← h2]
      rfl)
    (by decide)

/-- C3 counterexample: a state whose snapshot was freshly built holds an
integer asset key; saving and loading it turns that key into the string
"20", so the loaded state differs from the saved one. -/
theorem c3_counterexample :
    load_state (save_state [] "owner/repo" stMixed) "owner/repo" ≠ stMixed := by
  decide

/-- C3 (amended): the save/load round-trip reproduces the state exactly —
cache token and snapshot, key for key and value for value — provided
every dict key of the snapshot (release ids and asset ids) is a string,
as holds for every state that itself came from persistence; a state
holding raw integer asset keys comes back with those keys stringified. -/
theorem c3_roundtrip_exact_on_string_keys (store : Store) (repo : String)
    (st : PyState) (h : allStrKeys st.releases) :
    load_state (save_state store repo st) repo = st := by
  rw [load_state_save_state, decodeState_encodeState]
  obtain ⟨e, rels⟩ := st
  refine congrArg (PyState.mk e) ?_
  apply map_self
  intro p hp
  obtain ⟨hk, hak⟩ := h p hp
  obtain ⟨pk, pr⟩ := p
  cases pk with
  | intK n => simp [isStrK] at hk
  | strK t =>
    show (Key.strK (keyToString (Key.strK t)), decodeRelease (encodeRelease pr))
      = (Key.strK t, pr)
    rw [decodeRelease_encodeRelease pr hak]
    rfl

/-- C3 witness: round-trip is exact on a state with string keys only. -/
theorem c3_witness :
    allStrKeys (⟨some "e9", [(Key.strK "1", relCur1)]⟩ : PyState).releases ∧
    load_state (save_state [] "o/r" ⟨some "e9", [(Key.strK "1", relCur1)]⟩) "o/r" =
      ⟨some "e9", [(Key.strK "1", relCur1)]⟩ :=
  ⟨by decide, c3_roundtrip_exact_on_string_keys [] "o/r" _ (by decide)⟩

/-- C4: freshly built snapshots carry string release keys but raw integer
asset keys (hypothesis `hids`: the payload's asset ids are ints, as the
GitHub API guarantees), and persistence stringifies all keys.  Diffing
the save/load round-trip of a built snapshot (as previous state) against
that same snapshot therefore re-reports every asset as a `new_asset` —
and every asset with a positive count as a `download_increase` from 0 —
so detection is not idempotent across one persistence cycle. -/
theorem c4_persistence_breaks_idempotence (cfg : Config) (store : Store)
    (repo : String) (etag0 : Option String) (api : ApiData) (S : Snapshot)
    (prev : PyState)
    (hS : S = build_snapshot cfg api)
    (hprev : prev = load_state (save_state store repo ⟨etag0, S⟩) repo)
    (hids : ∀ r ∈ coerceApi api, ∀ a ∈ r.assets.getD [], ∃ n, a.id = Key.intK n)
    (hna : "new_asset" ∈ cfg.notify_on) :
    ∀ p ∈ S, ∀ q ∈ p.2.assets,
      Event.new_asset p.2 q.2 ∈ detect_changes cfg.notify_on prev S ∧
      (0 < q.2.download_count → "dl_increase" ∈ cfg.notify_on →
        Event.dl_increase p.2 q.2 q.2.download_count 0 q.2.download_count ∈
          detect_changes cfg.notify_on prev S) ∧
      detect_changes cfg.notify_on prev S ≠ [] := by
  intro p hp q hq
  have hprevRel : prev.releases = S.map
      (fun x => (Key.strK (keyToString x.1), decodeRelease (encodeRelease x.2))) := by
    rw [hprev, load_state_save_state, decodeState_encodeState]
  have hkeysStr : ∀ x ∈ S, ∃ t, x.1 = Key.strK t := by
    intro x hx
    obtain ⟨r, _, hxe⟩ := mem_build_snapshot (hS ▸ hx)
    exact ⟨pyStr (summarize_release cfg r).id, by rw [hxe]⟩
  have hkeys : (S.map (fun x =>
        (Key.strK (keyToString x.1), decodeRelease (encodeRelease x.2)))).map Prod.fst
      = S.map Prod.fst := by
    rw [List.map_map]
    apply List.map_congr_left
    intro x hx
    obtain ⟨t, ht⟩ := hkeysStr x hx
    show Key.strK (keyToString x.1) = x.1
    rw [ht]
    rfl
  obtain ⟨v0, hv0⟩ := pyGet_isSome_of_mem' hp
  obtain ⟨orel, horel⟩ : ∃ w, pyGet p.1 prev.releases = some w := by
    rw [hprevRel]
    exact pyGet_isSome_keys_eq S _ hkeys.symm ⟨v0, hv0⟩
  have horelStr : ∀ z ∈ orel.assets, isStrK z.1 = true := by
    have hmem2 : (p.1, orel) ∈ S.map
        (fun x => (Key.strK (keyToString x.1), decodeRelease (encodeRelease x.2))) := by
      rw [← hprevRel]
      exact mem_of_pyGet horel
    obtain ⟨x, _, hxe⟩ := List.mem_map.mp hmem2
    have hE : decodeRelease (encodeRelease x.2) = orel := congrArg Prod.snd hxe
    rw [← hE]
    exact decodeRelease_assets_strK _
  have hqInt : ∃ n, q.1 = Key.intK n := by
    obtain ⟨r, hr, hpe⟩ := mem_build_snapshot (hS ▸ hp)
    have hp2 : p.2 = summarize_release cfg r := congrArg Prod.snd hpe
    have hq2 : q ∈ (summarize_release cfg r).assets := hp2 ▸ hq
    obtain ⟨a, ha, hqa⟩ := mem_summarize_assets hq2
    obtain ⟨n, hn⟩ := hids r hr a ha
    exact ⟨n, by rw [hqa, hn]⟩
  obtain ⟨n, hn⟩ := hqInt
  have hnone : pyGet q.1 orel.assets = none := by
    apply pyGet_eq_none
    intro z hz
    have hzs := horelStr z hz
    rw [hn]
    cases hzk : z.1 with
    | strK t => simp
    | intK m =>
      rw [hzk] at hzs
      simp [isStrK] at hzs
  have hNA : Event.new_asset p.2 q.2 ∈ newAssetEvents prev.releases S := by
    apply List.mem_flatMap.mpr
    refine ⟨p, hp, ?_⟩
    rw [horel]
    apply List.mem_filterMap.mpr
    refine ⟨q, hq, ?_⟩
    rw [if_pos hnone]
  have hDetNA : Event.new_asset p.2 q.2 ∈ detect_changes cfg.notify_on prev S := by
    unfold detect_changes
    refine List.mem_append.mpr (Or.inl ?_)
    refine List.mem_append.mpr (Or.inr ?_)
    rw [if_pos hna]
    exact hNA
  refine ⟨hDetNA, ?_, List.ne_nil_of_mem hDetNA⟩
  intro hpos hdl
  apply dl_increase_of_absent cfg.notify_on prev S p q hdl hp hq ?_ hpos
  intro orel' horel'
  have hoo : orel = orel' := Option.some.inj (horel.symm.trans horel')
  rw [← hoo]
  exact hnone

/-- C4 witness: one release with one asset (3 downloads) round-trips into
string keys, and diffing against the original then re-reports both a
`new_asset` and a `dl_increase` for it. -/
theorem c4_witness :
    Event.new_asset relC4 assetC4 ∈
      detect_changes cfg0.notify_on
        (load_state (save_state [] "o/r4" ⟨some "t4", build_snapshot cfg0 api0⟩) "o/r4")
        (build_snapshot cfg0 api0) ∧
    Event.dl_increase relC4 assetC4 3 0 3 ∈
      detect_changes cfg0.notify_on
        (load_state (save_state [] "o/r4" ⟨some "t4", build_snapshot cfg0 api0⟩) "o/r4")
        (build_snapshot cfg0 api0) := by
  have h := c4_persistence_breaks_idempotence cfg0 [] "o/r4" (some "t4") api0
    (build_snapshot cfg0 api0)
    (load_state (save_state [] "o/r4" ⟨some "t4", build_snapshot cfg0 api0⟩) "o/r4")
    rfl rfl
    (fun r hr a ha => by
      have hr' : r = rawRel0 := List.mem_singleton.mp hr
      rw [hr'] at ha
      have ha' : a = rawAsset0 := List.mem_singleton.mp ha
      rw [ha']
      exact ⟨20, rfl⟩)
    (by decide)
    (Key.strK "1", relC4) (by decide) (Key.intK 20, assetC4) (by decide)
  exact ⟨h.1, h.2.1 (by decide) (by decide)⟩

/-- Reduction of `process_repo` on a successful fetch (definitional). -/
theorem process_repo_ok (cfg : Config) (deliver : Event → Bool) (prev : PyState)
    (data : ApiData) (etag0 : Option String) :
    process_repo cfg deliver prev (FetchResult.ok data etag0) =
      if (prev.releases.isEmpty && cfg.skip_existing_on_init) = true then
        ⟨[], some ⟨etag0, build_snapshot cfg data⟩⟩
      else
        ⟨(detect_changes cfg.notify_on prev (build_snapshot cfg data)).map
          (fun ev => (ev, deliver ev)), some ⟨etag0, build_snapshot cfg data⟩⟩ := rfl

/-- Projecting away the delivery-outcome component recovers the event
list itself: the loop attempts every event. -/
theorem map_fst_attempt (deliver : Event → Bool) (l : List Event) :
    (l.map (fun ev => (ev, deliver ev))).map Prod.fst = l := by
  rw [List.map_map]
  apply map_self
  intro x _
  rfl

/-- C5: on a first-run tick (the loaded state's snapshot is empty) with
SKIP_EXISTING_ON_INIT enabled, a successful fetch leads to zero delivery
attempts and persists exactly the new cache token together with the
snapshot built from the fetched payload. -/
theorem c5_first_run_baseline (cfg : Config) (deliver : Event → Bool)
    (prev : PyState) (data : ApiData) (etag0 : Option String)
    (hskip : cfg.skip_existing_on_init = true)
    (hfirst : prev.releases = []) :
    process_repo cfg deliver prev (FetchResult.ok data etag0) =
      ⟨[], some ⟨etag0, build_snapshot cfg data⟩⟩ := by
  unfold process_repo
  simp [hfirst, hskip]

/-- C5 witness: a first run over a payload with one release and one asset
emits nothing and persists the built snapshot. -/
theorem c5_witness :
    process_repo cfg0 (fun _ => true) defaultState (FetchResult.ok api0 (some "t2")) =
      ⟨[], some ⟨some "t2", build_snapshot cfg0 api0⟩⟩ :=
  c5_first_run_baseline cfg0 (fun _ => true) defaultState api0 (some "t2") rfl rfl

/-- C6: a tick that reaches change detection (the previous snapshot is
non-empty, or the skip policy is off) persists the new token and built
snapshot unconditionally, and the delivery loop attempts every detected
event in order — for every delivery oracle, i.e. no matter which
individual deliveries fail, since the source catches the failure per
event. -/
theorem c6_detection_tick_persists (cfg : Config) (deliver : Event → Bool)
    (prev : PyState) (data : ApiData) (etag0 : Option String)
    (h : prev.releases.isEmpty = false ∨ cfg.skip_existing_on_init = false) :
    (process_repo cfg deliver prev (FetchResult.ok data etag0)).saved =
      some ⟨etag0, build_snapshot cfg data⟩ ∧
    (process_repo cfg deliver prev (FetchResult.ok data etag0)).attempted.map Prod.fst =
      detect_changes cfg.notify_on prev (build_snapshot cfg data) := by
  have hcond : (prev.releases.isEmpty && cfg.skip_existing_on_init) = false := by
    rcases h with h1 | h1 <;> simp [h1]
  rw [process_repo_ok, if_neg (by simp [hcond])]
  exact ⟨rfl, map_fst_attempt deliver _⟩

/-- C6 witness: with a delivery oracle that fails every delivery, the
tick still persists and still attempts every detected event. -/
theorem c6_witness :
    (process_repo cfg0 (fun _ => false) stMixed
        (FetchResult.ok api0 (some "t3"))).saved =
      some ⟨some "t3", build_snapshot cfg0 api0⟩ ∧
    (process_repo cfg0 (fun _ => false) stMixed
        (FetchResult.ok api0 (some "t3"))).attempted.map Prod.fst =
      detect_changes cfg0.notify_on stMixed (build_snapshot cfg0 api0) :=
  c6_detection_tick_persists cfg0 (fun _ => false) stMixed api0 (some "t3")
    (Or.inl rfl)

/-- C7: a 304 Not Modified tick is a complete no-op: no delivery is
attempted, nothing is saved, and the state directory — hence the
repository's serialized state file — is left exactly as it was. -/
theorem c7_not_modified_no_op (cfg : Config) (deliver : Event → Bool)
    (store : Store) (repo : String) (etag0 : Option String) :
    runTick cfg deliver store repo (FetchResult.notModified etag0) =
      (store, ⟨[], none⟩) := rfl

/-- C9: `load_state` is total and returns the parsed file when the state
file exists and parses, and the default empty state (no cache token,
empty snapshot) when the file is missing or its content is unparseable —
the parse failure is swallowed, not surfaced. -/
theorem c9_load_state_cases (store : Store) (repo : String) :
    (pyGet (state_path repo) store = none →
      load_state store repo = defaultState) ∧
    (∀ g, pyGet (state_path repo) store = some (FileContent.garbage g) →
      load_state store repo = defaultState) ∧
    (∀ j, pyGet (state_path repo) store = some (FileContent.json j) →
      load_state store repo = decodeState j) := by
  refine ⟨?_, ?_, ?_⟩
  · intro h
    unfold load_state
    rw [h]
  · intro g h
    unfold load_state
    rw [h]
  · intro j h
    unfold load_state
    rw [h]

/-- C9 witness: a garbage state file loads as the default empty state. -/
theorem c9_witness :
    load_state [(state_path "a/b", FileContent.garbage "not json")] "a/b" =
      defaultState :=
  (c9_load_state_cases [(state_path "a/b", FileContent.garbage "not json")]
    "a/b").2.1 "not json" rfl

/-- Unfolding a tick sequence one step (definitional, by pair eta). -/
theorem runTicks_cons (cfg : Config) (deliver : Event → Bool) (repo : String)
    (f : FetchResult) (fs : List FetchResult) (store : Store) :
    runTicks cfg deliver repo (f :: fs) store =
      ((runTicks cfg deliver repo fs (runTick cfg deliver store repo f).1).1,
       (runTick cfg deliver store repo f).2.attempted.map Prod.fst ++
         (runTicks cfg deliver repo fs (runTick cfg deliver store repo f).1).2) := rfl

/-- C10: `is_first_run` tests only whether the loaded snapshot is empty,
never whether a state file exists.  Hence, with the skip policy on, a
repository whose successful fetches always build an empty snapshot takes
the first-run baseline branch on every successful tick — persisting the
empty baseline and never reaching change detection — and across any
fetch trace of such ticks (including 304s and errors) no delivery is
ever attempted and the loaded snapshot stays empty. -/
theorem c10_empty_upstream_always_first_run (cfg : Config)
    (deliver : Event → Bool) (repo : String)
    (hskip : cfg.skip_existing_on_init = true) :
    (∀ (store : Store) (data : ApiData) (e : Option String),
      (load_state store repo).releases = [] →
      build_snapshot cfg data = [] →
      runTick cfg deliver store repo (FetchResult.ok data e) =
        (save_state store repo ⟨e, []⟩, ⟨[], some ⟨e, []⟩⟩)) ∧
    (∀ (fetches : List FetchResult) (store : Store),
      (load_state store repo).releases = [] →
      (∀ f ∈ fetches, okBuildsEmpty cfg f = true) →
      (runTicks cfg deliver repo fetches store).2 = [] ∧
      (load_state (runTicks cfg deliver repo fetches store).1 repo).releases = []) := by
  have hsingle : ∀ (store : Store) (data : ApiData) (e : Option String),
      (load_state store repo).releases = [] →
      build_snapshot cfg data = [] →
      runTick cfg deliver store repo (FetchResult.ok data e) =
        (save_state store repo ⟨e, []⟩, ⟨[], some ⟨e, []⟩⟩) := by
    intro store data e hempty hbuild
    have hproc : process_repo cfg deliver (load_state store repo)
        (FetchResult.ok data e) = ⟨[], some ⟨e, []⟩⟩ := by
      rw [process_repo_ok, if_pos (by simp [hempty, hskip]), hbuild]
    unfold runTick
    simp only [hproc]
  have hloadsave : ∀ (store : Store) (e : Option String),
      (load_state (save_state store repo ⟨e, []⟩) repo).releases = [] := by
    intro store e
    rw [load_state_save_state, decodeState_encodeState]
    rfl
  refine ⟨hsingle, ?_⟩
  intro fetches
  induction fetches with
  | nil =>
    intro store hempty _
    exact ⟨rfl, hempty⟩
  | cons f fs ih =>
    intro store hempty hall
    have hf := hall f (List.mem_cons_self _ _)
    have hrest : ∀ f' ∈ fs, okBuildsEmpty cfg f' = true :=
      fun f' hf' => hall f' (List.mem_cons_of_mem _ hf')
    cases f with
    | httpError =>
      obtain ⟨h1, h2⟩ := ih store hempty hrest
      exact ⟨h1, h2⟩
    | otherError =>
      obtain ⟨h1, h2⟩ := ih store hempty hrest
      exact ⟨h1, h2⟩
    | notModified e =>
      obtain ⟨h1, h2⟩ := ih store hempty hrest
      exact ⟨h1, h2⟩
    | ok data e =>
      have hbuild : build_snapshot cfg data = [] :=
        of_decide_eq_true hf
      rw [runTicks_cons, hsingle store data e hempty hbuild]
      obtain ⟨h1, h2⟩ := ih (save_state store repo ⟨e, []⟩)
        (hloadsave store e) hrest
      exact ⟨h1, h2⟩

/-- C10 witness: a trace of one empty successful fetch, a 304 and an
error, starting from an empty store: no event is ever attempted and the
stored snapshot stays empty; the successful tick persists the empty
baseline. -/
theorem c10_witness :
    runTick cfg0 (fun _ => true) [] "o/r10" (FetchResult.ok (ApiData.many []) (some "t1")) =
      (save_state [] "o/r10" ⟨some "t1", []⟩, ⟨[], some ⟨some "t1", []⟩⟩) ∧
    (runTicks cfg0 (fun _ => true) "o/r10" fetches10 []).2 = [] ∧
    (load_state (runTicks cfg0 (fun _ => true) "o/r10" fetches10 []).1 "o/r10").releases = [] := by
  have h := c10_empty_upstream_always_first_run cfg0 (fun _ => true) "o/r10" rfl
  refine ⟨h.1 [] (ApiData.many []) (some "t1") rfl rfl, ?_⟩
  exact h.2 fetches10 [] rfl (by decide)

end GhWatcher
